import Mathlib

/-!
Verification of the video_edit_pipeline timeline-synthesis core

A shallow embedding of the beat-driven edit pipeline:

* `src/src/utils.py` — timecode conversions (`format_seconds_to_hhmmssff`,
  `parse_hhmmssff_to_seconds`);
* `src/filtrar_batidas.py` and `src/audio_processing.py` — amplitude data
  loading and beat filtering (`load_amplitude_data`,
  `filter_timestamps_by_amplitude`);
* `src/src/editing.py` — timeline synthesis
  (`gerar_edit_json_pelas_batidas`) and the render pipeline
  (`criar_edite_do_json`).

Python floats are modelled by `ℚ` (exact arithmetic), Python ints by `ℤ`,
Python strings by `String` manipulated through their character lists.
File-system reads are passed in as explicit inputs (`Option` encodes a
missing file), external tool invocations (ffmpeg et al.) as boolean
outcome oracles, and `random.choice` as an adversarial index stream, so
that theorems quantify over every possible random outcome.
-/

/-! ## Python primitive models: `str.split`, `int(...)`, `float(...)`, `str.strip` -/

/-- Model of Python's `str.split(sep)` for a single-character separator,
acting on a character list: splits at every occurrence of `sep`, keeping
empty parts (`"a::b".split(":") == ["a","","b"]`, `"".split(":") == [""]`). -/
def splitOnChar (sep : Char) : List Char → List (List Char)
  | [] => [[]]
  | c :: cs =>
    if c = sep then [] :: splitOnChar sep cs
    else
      match splitOnChar sep cs with
      | [] => [[c]]
      | p :: ps => (c :: p) :: ps

/-- The character for a decimal digit value. -/
def digitChar (d : ℕ) : Char := Char.ofNat (48 + d)

/-- Fuel-driven digit expansion (structural recursion so that concrete
values reduce in the kernel); `natToChars` supplies enough fuel. -/
def natToCharsAux : ℕ → ℕ → List Char
  | 0, _ => []
  | fuel + 1, n =>
    if n < 10 then [digitChar n]
    else natToCharsAux fuel (n / 10) ++ [digitChar (n % 10)]

/-- Decimal digits of a natural number, most significant first (`"0"` for 0);
the character-level content of Python's `str(n)` for `n ≥ 0`. -/
def natToChars (n : ℕ) : List Char := natToCharsAux (n + 1) n

/-- Value of a digit string (no validation; callers check `isDigit` first). -/
def charsToNatCore (cs : List Char) : ℕ :=
  cs.foldl (fun a c => 10 * a + (c.toNat - 48)) 0

/-- Digit-string to number: `some` exactly on non-empty all-digit strings. -/
def charsToNat? (cs : List Char) : Option ℕ :=
  if cs ≠ [] ∧ cs.all Char.isDigit then some (charsToNatCore cs) else none

/-- Strip leading and trailing whitespace from a character list (Python
`str.strip()` restricted to ASCII whitespace). -/
def stripWs (cs : List Char) : List Char :=
  ((cs.dropWhile Char.isWhitespace).reverse.dropWhile Char.isWhitespace).reverse

/-- Model of Python's `int(s)` on a character list: optional surrounding
whitespace, an optional sign, then a non-empty run of ASCII digits.
(Exotic inputs accepted by CPython — underscore separators, non-ASCII
digits — are out of scope; they do not occur in this pipeline's data.) -/
def pyIntChars (cs : List Char) : Option Int :=
  let cs' := stripWs cs
  if cs'.head? = some '-' then (charsToNat? cs'.tail).map (fun n => -(n : Int))
  else if cs'.head? = some '+' then (charsToNat? cs'.tail).map (fun n => (n : Int))
  else (charsToNat? cs').map (fun n => (n : Int))

/-- Model of Python's `float(s)` on plain decimal literals: optional sign,
optional single decimal point, digits (`"10.0"`, `".5"`, `"-3."`).
Exponent/inf/nan forms are out of scope; the pipeline writes amplitudes
with `f"{amp:.6f}"`, which this covers. -/
def pyFloatChars (cs : List Char) : Option ℚ :=
  let cs' := stripWs cs
  let neg : Bool := cs'.head? = some '-'
  let body := if cs'.head? = some '-' ∨ cs'.head? = some '+' then cs'.tail else cs'
  let sgn : ℚ := if neg then -1 else 1
  match splitOnChar '.' body with
  | [ip] =>
    if ip ≠ [] ∧ ip.all Char.isDigit then some (sgn * charsToNatCore ip) else none
  | [ip, fp] =>
    if (ip ≠ [] ∨ fp ≠ []) ∧ ip.all Char.isDigit ∧ fp.all Char.isDigit then
      some (sgn * ((charsToNatCore ip : ℚ) + (charsToNatCore fp : ℚ) / 10 ^ fp.length))
    else none
  | _ => none

/-- Python `str.strip()` at the `String` level. -/
def pyStrip (s : String) : String := String.mk (stripWs s.data)

/-- Python `str.startswith`. -/
def pyStartsWith (s pre : String) : Bool := pre.data.isPrefixOf s.data

/-- Python `str.endswith`. -/
def pyEndsWith (s suf : String) : Bool := suf.data.isSuffixOf s.data

/-- Python `str.lower()` (ASCII). -/
def pyLower (s : String) : String := String.mk (s.data.map Char.toLower)

/-- Python `str(n)` for an `int`. -/
def intToString (n : Int) : String :=
  if n < 0 then String.mk ('-' :: natToChars n.natAbs) else String.mk (natToChars n.toNat)

/-- Python's `round()` (banker's rounding: nearest integer, ties to even),
on exact rationals. -/
def pyRound (q : ℚ) : Int :=
  let fl := ⌊q⌋
  let r := q - fl
  if r < 1/2 then fl
  else if 1/2 < r then fl + 1
  else if Even fl then fl else fl + 1

/-! ## Timecode module (`src/src/utils.py`) -/

/-- A Python value passed as the `fps` argument: an actual `int`, or any
non-`int` value (floats, strings, …), which both conversion functions
coerce to the default 25 (`if not isinstance(fps, int) or fps <= 0`). -/
inductive PyNum where
  | int (n : Int)
  | nonInt
deriving DecidableEq

/-- The effective fps after the guard
`if not isinstance(fps, int) or fps <= 0: fps = 25` shared by
`format_seconds_to_hhmmssff` and `parse_hhmmssff_to_seconds`. -/
def effFps : PyNum → Int
  | .int n => if n ≤ 0 then 25 else n
  | .nonInt => 25

/-- Python `f"{x:02d}"` formatting: decimal digits zero-padded to width 2 (sign included in
the width, zeros between sign and digits, as in CPython). -/
def fmt02d (n : Int) : List Char :=
  if n < 0 then
    let ds := natToChars n.natAbs
    '-' :: (List.replicate (2 - 1 - ds.length) '0' ++ ds)
  else
    let ds := natToChars n.toNat
    List.replicate (2 - ds.length) '0' ++ ds

/-- The character list `A ++ ":" ++ B ++ ":" ++ C ++ ":" ++ D` of an
`HH:MM:SS:FF` string. -/
def tcChars (a b c d : List Char) : List Char :=
  a ++ ':' :: (b ++ ':' :: (c ++ ':' :: d))

/-- Function `utils.format_seconds_to_hhmmssff(seconds, fps=25)` (secondsToTimecode):
rounds `seconds * fps` to a frame count, decomposes by `fps`, 60, 60
(Python `//` and `%` are floor division, `Int.fdiv`/`Int.fmod`), and
formats each field with `f"{x:02d}"`. -/
def format_seconds_to_hhmmssff (seconds : ℚ) (fps : PyNum := .int 25) : String :=
  let fpsI : Int := effFps fps
  let total_frames : Int := pyRound (seconds * (fpsI : ℚ))
  let ff := Int.fmod total_frames fpsI
  let total_seconds_int := Int.fdiv total_frames fpsI
  let ss := Int.fmod total_seconds_int 60
  let total_minutes := Int.fdiv total_seconds_int 60
  let mm := Int.fmod total_minutes 60
  let hh := Int.fdiv total_minutes 60
  String.mk (tcChars (fmt02d hh) (fmt02d mm) (fmt02d ss) (fmt02d ff))

/-- Function `utils.parse_hhmmssff_to_seconds(time_str, fps=25)` (timecodeToSeconds):
splits on `:`; 3 components get a `"0"` frame field appended, any count
other than 3 or 4 raises `ValueError` (modelled as `Except.error`); each
component goes through `int(...)`; result is `h*3600 + m*60 + s + f/fps`. -/
def parse_hhmmssff_to_seconds (time_str : String) (fps : PyNum := .int 25) :
    Except String ℚ :=
  let fpsI : Int := effFps fps
  let parts := splitOnChar ':' time_str.data
  if parts.length = 4 ∨ parts.length = 3 then
    let parts4 := if parts.length = 4 then parts else parts ++ [['0']]
    match parts4.mapM pyIntChars with
    | some [h, m, s, f] =>
      .ok (((h * 3600 + m * 60 + s : Int) : ℚ) + (f : ℚ) / (fpsI : ℚ))
    | some _ => .error "unreachable: mapM preserves the length 4"
    | none => .error ("Componentes de tempo invalidos: " ++ time_str)
  else .error ("Time string " ++ time_str ++ " formato invalido.")

/-- Shorthand for `parse_hhmmssff_to_seconds` at the synthesizer's hard-coded
`fps_for_parsing = 25`, with the `try/except ValueError` collapsed to
`Option`. -/
def tcSec (s : String) : Option ℚ := (parse_hhmmssff_to_seconds s (.int 25)).toOption

/-! ## Amplitude filter (`src/filtrar_batidas.py`, `src/audio_processing.py`) -/

/-- Python dict insertion `d[k] = v` on an association list with unique
keys: overwrite in place, else append. -/
def dictInsert (m : List (String × ℚ)) (k : String) (v : ℚ) : List (String × ℚ) :=
  if m.any (fun p => p.1 = k) then
    m.map (fun p => if p.1 = k then (k, v) else p)
  else m ++ [(k, v)]

/-- Python `max(xs) if xs else 0.0`. -/
def pyMaxD : List ℚ → ℚ
  | [] => 0
  | a :: rest => rest.foldl max a

/-- Function `load_amplitude_data(amplitude_file_path)` (both copies are identical in
behaviour): each stripped non-empty line is split on `,`; a line must give
exactly two parts with a float second part, otherwise it is skipped
(`except ValueError: continue`); duplicate timecodes overwrite in the map
while every parsed amplitude still enters the running maximum. `none`
models a missing file (returns `({}, 0.0)`). -/
def load_amplitude_data : Option (List String) → List (String × ℚ) × ℚ
  | none => ([], 0)
  | some lines =>
    let step : List (String × ℚ) × List ℚ → String → List (String × ℚ) × List ℚ :=
      fun acc linha =>
        let l := pyStrip linha
        if l = "" then acc
        else
          match splitOnChar ',' l.data with
          | [ts, amp_str] =>
            match pyFloatChars amp_str with
            | some amplitude => (dictInsert acc.1 (String.mk ts) amplitude, acc.2 ++ [amplitude])
            | none => acc
          | _ => acc
    let r := lines.foldl step ([], [])
    (r.1, pyMaxD r.2)

/-- The per-timestamp keep decision shared by both filter implementations:
keep a (stripped, non-empty) timestamp iff it is mapped and its amplitude
reaches the lower bound; unmapped timestamps are dropped. -/
def keepTimestamp (amplitude_map : List (String × ℚ)) (lowerBound : ℚ) (ts : String) : Bool :=
  match amplitude_map.lookup ts with
  | some a => decide (lowerBound ≤ a)
  | none => false

/-- Function `audio_processing.filter_timestamps_by_amplitude(timestamps_file_path,
amplitude_map, overall_max_amplitude, min_amplitude_percentage)`.
The function reads the timestamps file, keeps the lines whose amplitude is
`≥ (min_amplitude_percentage/100) * overall_max_amplitude`, and overwrites
the file with the kept lines; `some l` models that successful overwrite
with content `l`, `none` models a `return False` (empty map, zero max, or
missing file), in which case the file is left untouched. -/
def filter_timestamps_by_amplitude (timestamps_lines : Option (List String))
    (amplitude_map : List (String × ℚ)) (overall_max_amplitude : ℚ)
    (min_amplitude_percentage : ℚ) : Option (List String) :=
  if amplitude_map = [] ∨ overall_max_amplitude = 0 then none
  else
    match timestamps_lines with
    | none => none
    | some ls =>
      let limite_inferior := min_amplitude_percentage / 100 * overall_max_amplitude
      some (((ls.map pyStrip).filter (fun l => l != "")).filter
        (keepTimestamp amplitude_map limite_inferior))

/-- Function `filtrar_batidas.filter_timestamps_by_amplitude(timestamps_to_filter_file_path,
amplitude_map, overall_max_amplitude)`: same keep decision with the
threshold fixed at `0.75 * overall_max_amplitude`; this variant returns
the kept list directly and returns `[]` on the degenerate cases. -/
def filter_timestamps_by_amplitude_fb (timestamps_lines : Option (List String))
    (amplitude_map : List (String × ℚ)) (overall_max_amplitude : ℚ) : List String :=
  if amplitude_map = [] ∨ overall_max_amplitude = 0 then []
  else
    match timestamps_lines with
    | none => []
    | some ls =>
      let limite_inferior := (3 / 4 : ℚ) * overall_max_amplitude
      ((ls.map pyStrip).filter (fun l => l != "")).filter
        (keepTimestamp amplitude_map limite_inferior)

/-! ## Timeline synthesizer (`src/src/editing.py`, `gerar_edit_json_pelas_batidas`) -/

/-- One record of `cenas_detectadas.json`. -/
structure DetectedScene where
  cena_numero : Int
  inicio_segundos : ℚ
  fim_segundos : ℚ
deriving DecidableEq, Inhabited

/-- The visual source stored in a synthesized scene entry: a `"frame"`
key (frame-pointer mode) or a `"scene_cuted"` key (scene-segment mode). -/
inductive Visual where
  | frame (f : String)
  | scene_cuted (n : Int)
deriving DecidableEq

/-- One entry of the generated `edit.json` `scenes` list. -/
structure SceneEntry where
  audio_start : String
  audio_end : String
  visual : Visual
deriving DecidableEq

/-- The generated `edit.json` content. -/
structure EditData where
  source_video : String
  source_audio : String
  scenes : List SceneEntry
deriving DecidableEq

/-- The inner scan of `gerar_edit_json_pelas_batidas` (lines 332–342):
starting at index `j`, find the first beat whose distance from
`audio_start_str` is at least `min_duration_sec`; iterations where either
timestamp fails to parse are skipped (`except ValueError: pass`). Fuel
(top call: `beats.length`) only bounds the recursion; the scan stops by
itself at `len(beats)`. -/
def findEnd (beats : List String) (startStr : String) (minDur : ℚ) :
    ℕ → ℕ → Option ℕ
  | 0, _ => none
  | fuel + 1, j =>
    if j < beats.length then
      match tcSec startStr, tcSec (beats.getD j "") with
      | some s, some e =>
        if minDur ≤ e - s then some j
        else findEnd beats startStr minDur fuel (j + 1)
      | _, _ => findEnd beats startStr minDur fuel (j + 1)
    else none

/-- The `while i < len(beats) - 1` loop of `gerar_edit_json_pelas_batidas`
(lines 326–371). `useScenes`/`detected` reflect `use_scenes_from_detection`
and `detected_scenes_data` after the pre-loop resolution, `frames` is
`available_frame_numbers`. `random.choice(pool)` is modelled as
`pool[rand k % len(pool)]` for an arbitrary stream `rand` (`k` counts the
choices made), which covers every possible random outcome. On a committed
scene the loop continues at `i = next_beat_index_for_end` whether or not
an entry was appended; otherwise at `i + 1`. Fuel (top call:
`beats.length`) bounds the recursion; `i` strictly increases, so
`beats.length` steps always suffice. -/
def synthLoop (beats : List String) (minDur : ℚ) (useScenes : Bool)
    (detected : List DetectedScene) (frames : List String) (rand : ℕ → ℕ) :
    ℕ → ℕ → ℕ → List SceneEntry
  | 0, _, _ => []
  | fuel + 1, i, k =>
    if i < beats.length - 1 then
      let startStr := beats.getD i ""
      match findEnd beats startStr minDur beats.length (i + 1) with
      | some j =>
        let endStr := beats.getD j ""
        if useScenes = true ∧ detected ≠ [] then
          let dur := (tcSec endStr).getD 0 - (tcSec startStr).getD 0
          let candidates := detected.filter
            (fun s => decide (dur ≤ s.fim_segundos - s.inicio_segundos))
          let chosen :=
            if candidates ≠ [] then candidates.getD (rand k % candidates.length) default
            else detected.getD (rand k % detected.length) default
          ⟨startStr, endStr, .scene_cuted chosen.cena_numero⟩ ::
            synthLoop beats minDur useScenes detected frames rand fuel j (k + 1)
        else if useScenes = false ∧ frames ≠ [] then
          ⟨startStr, endStr, .frame (frames.getD (rand k % frames.length) "")⟩ ::
            synthLoop beats minDur useScenes detected frames rand fuel j (k + 1)
        else
          synthLoop beats minDur useScenes detected frames rand fuel j k
      | none => synthLoop beats minDur useScenes detected frames rand fuel (i + 1) k
    else []

/-- The `generate_edit_config` dictionary: `config.get(key, default)`
reads `none` as an absent key. -/
structure GenEditConfig where
  min_scene_duration_seconds : Option ℚ
  use_scenes : Option Bool

/-- The file-system inputs of `gerar_edit_json_pelas_batidas`; `none`
always models a missing file/directory. `batidas_lines` are the raw lines
of the beats file, `cenas_detectadas` the decoded `cenas_detectadas.json`,
`frames_files` the directory listing of the source-video frames folder. -/
structure SynthFS where
  batidas_lines : Option (List String)
  cenas_detectadas : Option (List DetectedScene)
  frames_files : Option (List String)

/-- The list `[line.strip() for line in f if line.strip()]`. -/
def cleanBeats (lines : List String) : List String :=
  (lines.map pyStrip).filter (fun l => l != "")

/-- Pre-loop scene-mode resolution (lines 292–304): scene mode survives
only if it was requested, `cenas_detectadas.json` exists and its list is
non-empty; otherwise the run degrades to frame mode (with
`detected_scenes_data` as left by the attempt). -/
def resolveSceneMode (use0 : Bool) (cenas : Option (List DetectedScene)) :
    Bool × List DetectedScene :=
  if use0 then
    match cenas with
    | some ds => if ds.isEmpty then (false, ds) else (true, ds)
    | none => (false, [])
  else (false, [])

/-- The frame files accepted by line 311:
`f.startswith("frame_") and f.lower().endswith(".jpg")`. -/
def frameJpgs (files : List String) : List String :=
  files.filter (fun f => pyStartsWith f "frame_" && pyEndsWith (pyLower f) ".jpg")

/-- The value `str(int(frame_file.split('_')[1]))` with `ValueError`/`IndexError`
skipping the file (lines 315–319). -/
def extract_frame_number (f : String) : Option String :=
  match (splitOnChar '_' f.data).get? 1 with
  | none => none
  | some cs => (pyIntChars cs).map intToString

/-- The `available_frame_numbers` list as extracted from a directory listing. -/
def frameNums (files : List String) : List String :=
  (frameJpgs files).filterMap extract_frame_number

/-- Function `gerar_edit_json_pelas_batidas`: reads the beats file (`none` result
models every `return False` path — missing beats file, fewer than two
beats, missing/empty frame inventory in frame mode), resolves the visual
mode, runs the synthesis loop and returns the `edit.json` content that is
written on success. -/
def gerar_edit_json_pelas_batidas (fs : SynthFS) (cfg : GenEditConfig)
    (nome_video_fonte nome_audio_fonte : String) (rand : ℕ → ℕ) : Option EditData :=
  match fs.batidas_lines with
  | none => none
  | some lines =>
    let min_duration_sec := cfg.min_scene_duration_seconds.getD 2
    let beats := cleanBeats lines
    if beats.length < 2 then none
    else
      let md := resolveSceneMode (cfg.use_scenes.getD false) fs.cenas_detectadas
      if md.1 then
        some ⟨nome_video_fonte, nome_audio_fonte,
          synthLoop beats min_duration_sec true md.2 [] rand beats.length 0 0⟩
      else
        match fs.frames_files with
        | none => none
        | some files =>
          let jpgs := frameJpgs files
          if jpgs.isEmpty then none
          else
            let nums := jpgs.filterMap extract_frame_number
            if nums.isEmpty then none
            else
              some ⟨nome_video_fonte, nome_audio_fonte,
                synthLoop beats min_duration_sec false md.2 nums rand beats.length 0 0⟩

/-! ## Render pipeline (`src/src/editing.py`, `criar_edite_do_json`)

The render function is dominated by external `ffmpeg` invocations and
file writes.  The embedding keeps its exact control flow and models each
external operation by its success/failure outcome (an oracle bit per
scene / per quality preset); the observables are which final output files
get written, how many scene clips were successfully cut and clipped, and
whether the scoped temporary directory `temp_edit_files` still exists
when the call returns. -/

/-- Python truthiness of an optional string (`None` and `""` are falsy). -/
def truthyS : Option String → Bool
  | some s => s != ""
  | none => false

/-- Python truthiness of an optional int (`None` and `0` are falsy). -/
def truthyI : Option Int → Bool
  | some n => n != 0
  | none => false

/-- One entry of the `scenes` list of `edit.json` as consumed by the
render pipeline (`scene.get(...)`; `none` models a missing key). -/
structure RenderScene where
  audio_start : Option String
  audio_end : Option String
  frame : Option String
  scene_cuted : Option Int

/-- The `edit_data` dictionary read from `edit.json`. -/
structure RenderEditData where
  source_video : Option String
  source_audio : Option String
  scenes : List RenderScene

/-- The configuration entries read by `criar_edite_do_json`. -/
structure QualityPreset where
  name : Option String
  crf : Option Int

/-- The `config` dictionary as consumed by the render pipeline. -/
structure RenderConfig where
  output_qualities : Option (List QualityPreset)
  movie_name : Option String

/-- File-system state consulted by the render pipeline.
`cenas_detectadas = none` covers both a missing
`cenas_detectadas.json` and a JSON decode error (both yield `[]`). -/
structure RenderFS where
  audio_exists : Bool
  video_exists : Bool
  temp_exists0 : Bool
  frames_dir_exists : Bool
  frame_found : String → Bool
  cenas_detectadas : Option (List DetectedScene)

/-- Outcomes of the external encoding operations, indexed by scene number
or quality-preset position. -/
structure RenderOracle where
  cut_audio_ok : ℕ → Bool
  make_video_ok : ℕ → Bool
  intermediate_ok : ℕ → Bool
  final_ok : ℕ → Bool

/-- The observables of one render call. -/
structure RenderResult where
  outputs : List String
  temp_exists : Bool
  n_scene_clips : ℕ
deriving DecidableEq

/-- The per-scene stage (lines 54–145 of `editing.py`): a scene yields a
clip iff it passes, in order, the completeness check (audio range plus a
truthy visual source), timestamp parsing at fps 25, a positive audio
duration, the audio cut, the visual-source resolution (`scene_cuted`
takes priority over `frame`), and the video encode. Any failure skips
just this scene. -/
def processScene (fs : RenderFS) (orc : RenderOracle) (i : ℕ) (sc : RenderScene) : Bool :=
  if ¬(truthyS sc.audio_start = true ∧ truthyS sc.audio_end = true ∧
       (truthyS sc.frame = true ∨ truthyI sc.scene_cuted = true)) then false
  else
    match tcSec (sc.audio_start.getD ""), tcSec (sc.audio_end.getD "") with
    | some audio_start_sec, some audio_end_sec =>
      if audio_end_sec - audio_start_sec ≤ 0 then false
      else if ¬(orc.cut_audio_ok i = true) then false
      else if truthyI sc.scene_cuted then
        match (fs.cenas_detectadas.getD []).find?
            (fun d => d.cena_numero == sc.scene_cuted.getD 0) with
        | some _ => orc.make_video_ok i
        | none => false
      else if truthyS sc.frame then
        if ¬(fs.frames_dir_exists = true) then false
        else if ¬(fs.frame_found (sc.frame.getD "") = true) then false
        else orc.make_video_ok i
      else false
    | _, _ => false

/-- Function `criar_edite_do_json(edit_data, config, base_dir)`: validation happens
before the temporary directory is (re)created; with zero successful scene
clips the render aborts after removing the temporary directory; otherwise
one output per quality preset is attempted (the intermediate concat and
the final encode must both succeed), each preset's failure being isolated;
the temporary directory is removed at the end of every completed path. -/
def criar_edite_do_json (edit_data : RenderEditData) (config : RenderConfig)
    (fs : RenderFS) (orc : RenderOracle) : RenderResult :=
  if ¬(truthyS edit_data.source_video = true ∧ truthyS edit_data.source_audio = true) then
    ⟨[], fs.temp_exists0, 0⟩
  else if ¬(fs.audio_exists = true) then ⟨[], fs.temp_exists0, 0⟩
  else if ¬(fs.video_exists = true) then ⟨[], fs.temp_exists0, 0⟩
  else
    let nClips := ((edit_data.scenes.enum).filter
      (fun p => processScene fs orc p.1 p.2)).length
    if nClips = 0 then ⟨[], false, 0⟩
    else
      let output_qualities := config.output_qualities.getD [⟨some "default", some 23⟩]
      let outputs := ((output_qualities.enum).filter
        (fun p => orc.intermediate_ok p.1 && orc.final_ok p.1)).map
        (fun p => "edit_final_" ++ (p.2.name.getD "custom") ++ ".mp4")
      ⟨outputs, false, nClips⟩

/-! ## Generic helper lemmas -/

lemma mem_of_head?_mem {α} {l : List α} {a : α} (h : a ∈ l.head?) : a ∈ l :=
  List.mem_of_mem_head? h

lemma getD_mem_of_lt {α} {l : List α} {n : ℕ} (d : α) (h : n < l.length) :
    l.getD n d ∈ l := by
  rw [List.getD_eq_getElem?_getD, List.getElem?_eq_getElem h]
  exact List.getElem_mem h

lemma getD_mod_mem {α} {l : List α} (d : α) (x : ℕ) (h : l ≠ []) :
    l.getD (x % l.length) d ∈ l :=
  getD_mem_of_lt d (Nat.mod_lt x (List.length_pos.mpr h))

lemma mapM_option_length {α β} {f : α → Option β} :
    ∀ {l : List α} {r : List β}, l.mapM f = some r → r.length = l.length := by
  intro l
  induction l with
  | nil => intro r h; simp only [List.mapM_nil, pure, Option.some.injEq] at h; simp [← h]
  | cons a t ih =>
    intro r h
    simp only [List.mapM_cons] at h
    cases hfa : f a with
    | none => rw [hfa] at h; simp [Option.bind] at h
    | some b =>
      rw [hfa] at h
      cases hmt : t.mapM f with
      | none => rw [hmt] at h; simp [Option.bind] at h
      | some bs =>
        rw [hmt] at h
        simp at h
        rw [← h]
        simp [ih hmt]

lemma mapM_option_none {α β} {f : α → Option β} {a : α} :
    ∀ {l : List α}, a ∈ l → f a = none → l.mapM f = none := by
  intro l
  induction l with
  | nil => intro h; simp at h
  | cons b t ih =>
    intro hmem hfa
    simp only [List.mapM_cons]
    rcases List.mem_cons.mp hmem with h | h
    · subst h; rw [hfa]; rfl
    · cases hfb : f b with
      | none => rfl
      | some v => rw [ih h hfa]; rfl

lemma mapM_option_append {α β} {f : α → Option β} {l₁ l₂ : List α} {r₁ r₂ : List β} :
    l₁.mapM f = some r₁ → l₂.mapM f = some r₂ → (l₁ ++ l₂).mapM f = some (r₁ ++ r₂) := by
  induction l₁ generalizing r₁ with
  | nil =>
    intro h₁ h₂
    simp only [List.mapM_nil, pure, Option.some.injEq] at h₁
    simpa [← h₁] using h₂
  | cons a t ih =>
    intro h₁ h₂
    simp only [List.mapM_cons] at h₁ ⊢
    cases hfa : f a with
    | none => rw [hfa] at h₁; simp [Option.bind] at h₁
    | some b =>
      rw [hfa] at h₁
      cases hmt : t.mapM f with
      | none => rw [hmt] at h₁; simp [Option.bind] at h₁
      | some bs =>
        rw [hmt] at h₁
        simp at h₁
        rw [List.cons_append]
        simp only [List.mapM_cons, hfa, ih hmt h₂]
        simp [← h₁]

/-- A boolean sorted-ness test for beat lists: every earlier beat parses to
a time no later than every later beat (pairs with an unparsable side are
unconstrained). This is the spec's data-model requirement that the beat
sequence is monotonically non-decreasing. -/
def tcLeB (a b : String) : Bool :=
  match tcSec a, tcSec b with
  | some x, some y => decide (x ≤ y)
  | _, _ => true

/-- Boolean pairwise test. -/
def pairwiseB {α} (r : α → α → Bool) : List α → Bool
  | [] => true
  | x :: xs => xs.all (r x) && pairwiseB r xs

lemma pairwiseB_getD {α} {r : α → α → Bool} :
    ∀ {l : List α}, pairwiseB r l = true → ∀ {i j : ℕ} (d : α), i < j → j < l.length →
      r (l.getD i d) (l.getD j d) = true := by
  intro l
  induction l with
  | nil => intro _ i j d _ hj; simp at hj
  | cons x xs ih =>
    intro hp i j d hij hj
    simp only [pairwiseB, Bool.and_eq_true, List.all_eq_true] at hp
    cases i with
    | zero =>
      cases j with
      | zero => omega
      | succ j =>
        simp only [List.getD_cons_zero, List.getD_cons_succ]
        exact hp.1 _ (getD_mem_of_lt d (by simpa using hj))
    | succ i =>
      cases j with
      | zero => omega
      | succ j =>
        simp only [List.getD_cons_succ]
        exact ih hp.2 d (by omega) (by simpa using hj)

/-! ## Claims C7, C8 — render-pipeline error handling and resource scoping -/

/-- C7: in a render call that reaches scene processing (names present,
source files found) and in which zero scenes are successfully cut and
clipped, the render is aborted: no final output file is produced for any
quality preset, and the temporary working area is removed before the
call returns. -/
theorem C7_zero_scenes_abort (edit_data : RenderEditData) (config : RenderConfig)
    (fs : RenderFS) (orc : RenderOracle)
    (hsv : truthyS edit_data.source_video = true)
    (hsa : truthyS edit_data.source_audio = true)
    (hae : fs.audio_exists = true) (hve : fs.video_exists = true)
    (hzero : ∀ p ∈ edit_data.scenes.enum, processScene fs orc p.1 p.2 = false) :
    criar_edite_do_json edit_data config fs orc = ⟨[], false, 0⟩ := by
  have hfil : (edit_data.scenes.enum).filter (fun p => processScene fs orc p.1 p.2) = [] := by
    rw [List.filter_eq_nil_iff]
    intro p hp
    simp [hzero p hp]
  unfold criar_edite_do_json
  rw [if_neg (by simp [hsv, hsa]), if_neg (by simp [hae]), if_neg (by simp [hve])]
  simp [hfil]

/-- Witness for C7: a concrete render call with one incomplete scene
(no audio range), all external operations succeeding. -/
theorem C7_zero_scenes_abort_witness :
    criar_edite_do_json
      ⟨some "video.mp4", some "audio.mp3", [⟨none, none, some "1", none⟩]⟩
      ⟨some [⟨some "low", some 28⟩], some "x"⟩
      ⟨true, true, true, true, fun _ => true, none⟩
      ⟨fun _ => true, fun _ => true, fun _ => true, fun _ => true⟩ = ⟨[], false, 0⟩ :=
  C7_zero_scenes_abort _ _ _ _ (by decide) (by decide) (by decide) (by decide)
    (by decide)

/-- C8: the scoped temporary working area (`temp_edit_files`) is absent
when a render call returns, on every exit path — given that, as on every
non-crashed run, it is not a stale leftover at call entry (the render
itself always removes it before returning, so consecutive runs satisfy
this). -/
theorem C8_temp_dir_released (edit_data : RenderEditData) (config : RenderConfig)
    (fs : RenderFS) (orc : RenderOracle) (h0 : fs.temp_exists0 = false) :
    (criar_edite_do_json edit_data config fs orc).temp_exists = false := by
  unfold criar_edite_do_json
  split
  · exact h0
  split
  · exact h0
  split
  · exact h0
  dsimp only
  split
  · rfl
  · rfl

/-- Witness for C8: a concrete fully-successful render call. -/
theorem C8_temp_dir_released_witness :
    (criar_edite_do_json
      ⟨some "video.mp4", some "audio.mp3", [⟨some "00:00:00:00", some "00:00:02:00", some "1", none⟩]⟩
      ⟨some [⟨some "low", some 28⟩], some "x"⟩
      ⟨true, true, false, true, fun _ => true, none⟩
      ⟨fun _ => true, fun _ => true, fun _ => true, fun _ => true⟩).temp_exists = false :=
  C8_temp_dir_released _ _ _ _ rfl

/-! ## Claim C9 — duplicate timecodes inflate `overallMax` -/

unseal Rat.add Rat.sub Rat.mul Rat.inv in
/-- C9: `load_amplitude_data` takes the maximum over every well-formed
line, including lines later overwritten by a duplicate timecode: on the
two-line file `"00:00:01:00,10.0"`, `"00:00:01:00,4.0"` the returned map
retains only amplitude 4 while `overallMax = 10`, strictly above every
retained value, and filtering the non-empty timestamp list
`["00:00:01:00"]` at 75% then returns the empty list. -/
theorem C9_overallMax_counts_overwritten_lines :
    load_amplitude_data (some ["00:00:01:00,10.0", "00:00:01:00,4.0"])
      = ([("00:00:01:00", 4)], 10) ∧
    (∀ p ∈ (load_amplitude_data
        (some ["00:00:01:00,10.0", "00:00:01:00,4.0"])).1, p.2 < 10) ∧
    filter_timestamps_by_amplitude (some ["00:00:01:00"])
      [("00:00:01:00", 4)] 10 75 = some [] := by
  refine ⟨by decide, by decide, by decide⟩

/-! ## Claim C4 — the amplitude filter -/

/-- C4 counterexample: with an empty amplitude map but a positive
`overallMax`, the claim predicts the empty list (no input timestamp is
present in the map), yet `audio_processing.filter_timestamps_by_amplitude`
refuses to run (`return False`, modelled `none`) and leaves the
timestamps file unfiltered instead of writing the empty list. -/
theorem C4_empty_map_counterexample :
    ¬ (filter_timestamps_by_amplitude (some ["00:00:01:00"]) [] 1 75 = some []) := by
  decide

/-- C4 (amended with a non-empty amplitude map): the filter keeps exactly
the input timestamps, in their original order, that are present in the
amplitude map with amplitude `≥ (minPercent/100) * overallMax`; unmapped
timestamps are silently dropped and the call succeeds. The second
conjunct checks the `filtrar_batidas.py` variant (threshold fixed at
75%), which returns the same kept list. -/
theorem C4_filter_characterization (ls : List String) (m : List (String × ℚ))
    (mx pct : ℚ) (hm : m ≠ []) (hmx : mx ≠ 0) :
    filter_timestamps_by_amplitude (some ls) m mx pct
      = some (((ls.map pyStrip).filter (fun l => l != "")).filter
          (fun ts => (m.lookup ts).any (fun a => decide (pct / 100 * mx ≤ a)))) ∧
    filter_timestamps_by_amplitude_fb (some ls) m mx
      = ((ls.map pyStrip).filter (fun l => l != "")).filter
          (fun ts => (m.lookup ts).any (fun a => decide ((3 : ℚ) / 4 * mx ≤ a))) := by
  have hcond : ¬(m = [] ∨ mx = 0) := by
    rintro (h | h)
    · exact hm h
    · exact hmx h
  have hkeep : ∀ lb : ℚ, keepTimestamp m lb = fun ts =>
      (m.lookup ts).any (fun a => decide (lb ≤ a)) := by
    intro lb
    funext ts
    unfold keepTimestamp
    cases m.lookup ts <;> rfl
  constructor
  · unfold filter_timestamps_by_amplitude
    rw [if_neg hcond]
    dsimp only
    rw [hkeep]
  · unfold filter_timestamps_by_amplitude_fb
    rw [if_neg hcond]
    dsimp only
    rw [hkeep]

unseal Rat.add Rat.sub Rat.mul Rat.inv in
/-- Witness for C4 at the spec's own worked example: map
`{"00:00:01:00": 10.0, "00:00:02:00": 4.0}`, `overallMax = 10`,
`minPercent = 75` keeps only `"00:00:01:00"` (4 < 7.5). -/
theorem C4_filter_characterization_witness :
    filter_timestamps_by_amplitude (some ["00:00:01:00", "00:00:02:00"])
      [("00:00:01:00", 10), ("00:00:02:00", 4)] 10 75 = some ["00:00:01:00"] :=
  ((C4_filter_characterization ["00:00:01:00", "00:00:02:00"]
      [("00:00:01:00", 10), ("00:00:02:00", 4)] 10 75
      (by decide) (by decide)).1).trans (by decide)

/-! ## Claim C10 — fps coercion makes both conversions total in fps -/

/-- C10: both timecode conversions coerce an fps argument that is not a
positive Python `int` to the default 25 before use; the effective fps is
always positive (so the `f / fps` division in
`parse_hhmmssff_to_seconds` is never a division by zero), each function
behaves as at the coerced fps, and whether parsing succeeds never
depends on the fps argument. -/
theorem C10_fps_coercion_total (fps : PyNum) :
    0 < effFps fps ∧
    ((∀ n : Int, fps = .int n → n ≤ 0) → effFps fps = 25) ∧
    (∀ s, parse_hhmmssff_to_seconds s fps
        = parse_hhmmssff_to_seconds s (.int (effFps fps))) ∧
    (∀ t, format_seconds_to_hhmmssff t fps
        = format_seconds_to_hhmmssff t (.int (effFps fps))) ∧
    (∀ s fps', (parse_hhmmssff_to_seconds s fps).toOption.isSome
        = (parse_hhmmssff_to_seconds s fps').toOption.isSome) := by
  have hpos : 0 < effFps fps := by
    cases fps with
    | int n =>
      simp only [effFps]
      split <;> omega
    | nonInt => norm_num [effFps]
  have hint : ∀ n : Int, effFps (.int n) = if n ≤ 0 then 25 else n := fun n => rfl
  have heff : effFps (.int (effFps fps)) = effFps fps := by
    rw [hint, if_neg (by omega)]
  refine ⟨hpos, ?_, ?_, ?_, ?_⟩
  · intro hnp
    cases fps with
    | int n =>
      have hle := hnp n rfl
      simp only [effFps]
      rw [if_pos hle]
    | nonInt => rfl
  · intro s
    unfold parse_hhmmssff_to_seconds
    rw [heff]
  · intro t
    unfold format_seconds_to_hhmmssff
    rw [heff]
  · intro s fps'
    unfold parse_hhmmssff_to_seconds
    dsimp only
    by_cases hlen : (splitOnChar ':' s.data).length = 4 ∨ (splitOnChar ':' s.data).length = 3
    · rw [if_pos hlen, if_pos hlen]
      cases hmm : (if (splitOnChar ':' s.data).length = 4 then splitOnChar ':' s.data
          else splitOnChar ':' s.data ++ [['0']]).mapM pyIntChars with
      | none => rfl
      | some vals =>
        rcases vals with _ | ⟨a, _ | ⟨b, _ | ⟨c, _ | ⟨d, _ | rest⟩⟩⟩⟩ <;> rfl
    · rw [if_neg hlen, if_neg hlen]

/-- Witness for C10: a float fps argument is coerced to 25. -/
theorem C10_fps_coercion_total_witness : effFps PyNum.nonInt = 25 :=
  (C10_fps_coercion_total PyNum.nonInt).2.1 (fun n h => by cases h)

/-! ## Claim C5 — parse error handling and well-formed values -/

/-- C5: `parse_hhmmssff_to_seconds` fails with a format error — and never
returns a numeric value — whenever the `:`-split has a component count
other than 3 or 4 or contains a non-integer component; on well-formed
input it returns `h*3600 + m*60 + s + f/fps`, the frame component
defaulting to 0 when only 3 components are given. -/
theorem C5_parse_error_handling (ts : String) (fps : PyNum) :
    (((splitOnChar ':' ts.data).length ≠ 3 ∧ (splitOnChar ':' ts.data).length ≠ 4) ∨
        (∃ p ∈ splitOnChar ':' ts.data, pyIntChars p = none) →
      ∃ msg, parse_hhmmssff_to_seconds ts fps = .error msg) ∧
    (∀ h m s f : Int, (splitOnChar ':' ts.data).mapM pyIntChars = some [h, m, s, f] →
      parse_hhmmssff_to_seconds ts fps
        = .ok (((h * 3600 + m * 60 + s : Int) : ℚ) + (f : ℚ) / (effFps fps : ℚ))) ∧
    (∀ h m s : Int, (splitOnChar ':' ts.data).mapM pyIntChars = some [h, m, s] →
      parse_hhmmssff_to_seconds ts fps
        = .ok (((h * 3600 + m * 60 + s : Int) : ℚ) + ((0 : Int) : ℚ) / (effFps fps : ℚ))) := by
  refine ⟨?_, ?_, ?_⟩
  · intro hbad
    unfold parse_hhmmssff_to_seconds
    dsimp only
    by_cases hlen : (splitOnChar ':' ts.data).length = 4 ∨ (splitOnChar ':' ts.data).length = 3
    · rw [if_pos hlen]
      rcases hbad with ⟨h3, h4⟩ | ⟨p, hp, hpnone⟩
      · rcases hlen with h | h
        · exact absurd h h4
        · exact absurd h h3
      · have hmm : (if (splitOnChar ':' ts.data).length = 4 then splitOnChar ':' ts.data
            else splitOnChar ':' ts.data ++ [['0']]).mapM pyIntChars = none := by
          split
          · exact mapM_option_none hp hpnone
          · exact mapM_option_none (List.mem_append_left _ hp) hpnone
        rw [hmm]
        exact ⟨_, rfl⟩
    · rw [if_neg hlen]
      exact ⟨_, rfl⟩
  · intro h m s f hmm
    have hlen4 : (splitOnChar ':' ts.data).length = 4 := by
      have := mapM_option_length hmm
      simpa using this.symm
    unfold parse_hhmmssff_to_seconds
    dsimp only
    rw [if_pos (Or.inl hlen4), if_pos hlen4, hmm]
  · intro h m s hmm
    have hlen3 : (splitOnChar ':' ts.data).length = 3 := by
      have := mapM_option_length hmm
      simpa using this.symm
    have hmm4 : ((splitOnChar ':' ts.data) ++ [['0']]).mapM pyIntChars
        = some [h, m, s, 0] := by
      have h0 : ([['0']] : List (List Char)).mapM pyIntChars = some [(0 : Int)] := by decide
      exact mapM_option_append hmm h0
    unfold parse_hhmmssff_to_seconds
    dsimp only
    rw [if_pos (Or.inr hlen3), if_neg (by omega), hmm4]

/-- Witness for C5: a 2-component string fails; `"00:00:07"` parses to 7
with the frame field defaulted. -/
theorem C5_parse_error_handling_witness :
    (∃ msg, parse_hhmmssff_to_seconds "12:34" (.int 25) = .error msg) ∧
    parse_hhmmssff_to_seconds "00:00:07" (.int 25)
      = .ok (((0 * 3600 + 0 * 60 + 7 : Int) : ℚ) + ((0 : Int) : ℚ) / ((25 : Int) : ℚ)) :=
  ⟨(C5_parse_error_handling "12:34" (.int 25)).1 (Or.inl (by decide)),
   (C5_parse_error_handling "00:00:07" (.int 25)).2.2 0 0 7 (by decide)⟩

/-! ## Structural lemmas about the synthesis loop -/

lemma findEnd_some {beats : List String} {startStr : String} {minDur : ℚ} :
    ∀ {fuel j j' : ℕ}, findEnd beats startStr minDur fuel j = some j' →
      j ≤ j' ∧ j' < beats.length ∧
      ∃ qs qe : ℚ, tcSec startStr = some qs ∧ tcSec (beats.getD j' "") = some qe ∧
        minDur ≤ qe - qs := by
  intro fuel
  induction fuel with
  | zero => intro j j' h; simp [findEnd] at h
  | succ fuel ih =>
    intro j j' h
    rw [findEnd] at h
    by_cases hj : j < beats.length
    · rw [if_pos hj] at h
      split at h
      · rename_i qs qe hqs hqe
        split at h
        · rename_i hdur
          cases h
          exact ⟨le_refl _, hj, qs, qe, hqs, hqe, hdur⟩
        · obtain ⟨h1, h2, h3⟩ := ih h
          exact ⟨by omega, h2, h3⟩
      · obtain ⟨h1, h2, h3⟩ := ih h
        exact ⟨by omega, h2, h3⟩
    · rw [if_neg hj] at h
      exact absurd h (by simp)

lemma synthLoop_mem {beats : List String} {minDur : ℚ} {u : Bool}
    {d : List DetectedScene} {fr : List String} {rand : ℕ → ℕ} :
    ∀ {fuel i k : ℕ} {e : SceneEntry},
      e ∈ synthLoop beats minDur u d fr rand fuel i k →
      ∃ si ei : ℕ, i ≤ si ∧ si < ei ∧ ei < beats.length ∧
        e.audio_start = beats.getD si "" ∧ e.audio_end = beats.getD ei "" ∧
        ∃ qs qe : ℚ, tcSec e.audio_start = some qs ∧ tcSec e.audio_end = some qe ∧
          minDur ≤ qe - qs := by
  intro fuel
  induction fuel with
  | zero => intro i k e h; simp [synthLoop] at h
  | succ fuel ih =>
    intro i k e h
    rw [synthLoop] at h
    by_cases hi : i < beats.length - 1
    · rw [if_pos hi] at h
      dsimp only at h
      split at h
      · rename_i j hfe
        obtain ⟨hj1, hj2, qs, qe, hqs, hqe, hdur⟩ := findEnd_some hfe
        by_cases hsc : u = true ∧ d ≠ []
        · rw [if_pos hsc] at h
          rcases List.mem_cons.mp h with he | he
          · subst he
            exact ⟨i, j, le_refl i, by omega, hj2, rfl, rfl, qs, qe, hqs, hqe, hdur⟩
          · obtain ⟨si, ei, h1, h2, h3, h4, h5, h6⟩ := ih he
            exact ⟨si, ei, by omega, h2, h3, h4, h5, h6⟩
        · rw [if_neg hsc] at h
          by_cases hfm : u = false ∧ fr ≠ []
          · rw [if_pos hfm] at h
            rcases List.mem_cons.mp h with he | he
            · subst he
              exact ⟨i, j, le_refl i, by omega, hj2, rfl, rfl, qs, qe, hqs, hqe, hdur⟩
            · obtain ⟨si, ei, h1, h2, h3, h4, h5, h6⟩ := ih he
              exact ⟨si, ei, by omega, h2, h3, h4, h5, h6⟩
          · rw [if_neg hfm] at h
            obtain ⟨si, ei, h1, h2, h3, h4, h5, h6⟩ := ih h
            exact ⟨si, ei, by omega, h2, h3, h4, h5, h6⟩
      · obtain ⟨si, ei, h1, h2, h3, h4, h5, h6⟩ := ih h
        exact ⟨si, ei, by omega, h2, h3, h4, h5, h6⟩
    · rw [if_neg hi] at h
      simp at h

/-- The non-overlap relation on consecutive synthesized scenes: the
earlier scene's audio end is at or before the later scene's audio start
(whenever both parse, which committed scenes always do). -/
def NoOverlap (a b : SceneEntry) : Prop :=
  ∀ qe qs : ℚ, tcSec a.audio_end = some qe → tcSec b.audio_start = some qs → qe ≤ qs

lemma synthLoop_chain {beats : List String} {minDur : ℚ} {u : Bool}
    {d : List DetectedScene} {fr : List String} {rand : ℕ → ℕ}
    (hsort : pairwiseB tcLeB beats = true) :
    ∀ fuel i k : ℕ,
      List.Chain' NoOverlap (synthLoop beats minDur u d fr rand fuel i k) := by
  intro fuel
  induction fuel with
  | zero => intro i k; simp [synthLoop]
  | succ fuel ih =>
    intro i k
    rw [synthLoop]
    by_cases hi : i < beats.length - 1
    · rw [if_pos hi]
      dsimp only
      split
      · rename_i j hfe
        obtain ⟨hj1, hj2, qs, qe, hqs, hqe, hdur⟩ := findEnd_some hfe
        have hhead : ∀ k' : ℕ, ∀ b ∈ (synthLoop beats minDur u d fr rand fuel j k').head?,
            ∀ xe xs : ℚ, tcSec (beats.getD j "") = some xe → tcSec b.audio_start = some xs →
              xe ≤ xs := by
          intro k' b hb xe xs hxe hxs
          obtain ⟨si, ei, hsi, _, hei, hbs, _, bs, be, hbqs, hbqe, _⟩ :=
            synthLoop_mem (mem_of_head?_mem hb)
          rcases Nat.lt_or_ge j si with hlt | hge
          · have hle := pairwiseB_getD hsort "" hlt (by omega)
            unfold tcLeB at hle
            rw [hxe] at hle
            rw [hbs] at hxs
            rw [hxs] at hle
            exact of_decide_eq_true hle
          · have hij : si = j := by omega
            rw [hbs, hij] at hxs
            rw [hxs] at hxe
            cases hxe
            exact le_refl _
        by_cases hsc : u = true ∧ d ≠ []
        · rw [if_pos hsc]
          rw [List.chain'_cons']
          exact ⟨fun b hb xe xs hxe hxs => hhead (k + 1) b hb xe xs hxe hxs, ih j (k + 1)⟩
        · rw [if_neg hsc]
          by_cases hfm : u = false ∧ fr ≠ []
          · rw [if_pos hfm]
            rw [List.chain'_cons']
            exact ⟨fun b hb xe xs hxe hxs => hhead (k + 1) b hb xe xs hxe hxs, ih j (k + 1)⟩
          · rw [if_neg hfm]
            exact ih j k
      · exact ih (i + 1) k
    · rw [if_neg hi]
      exact List.chain'_nil

/-! ## Claim C1 — invariants of synthesized scene entries -/

/-- C1: under the spec's data model (beats monotonically non-decreasing,
a positive configured minimum duration), every scene entry produced by
`gerar_edit_json_pelas_batidas` has an `audio_end` that is a beat of the
input occurring strictly after its `audio_start` beat, an audio duration
of at least the configured minimum, and consecutive scenes never overlap
in audio time (each scene's audio end is at or before the next scene's
audio start). -/
theorem C1_scene_entry_invariants (fs : SynthFS) (cfg : GenEditConfig)
    (nv na : String) (rand : ℕ → ℕ) (lines : List String) (ed : EditData)
    (hlines : fs.batidas_lines = some lines)
    (hsort : pairwiseB tcLeB (cleanBeats lines) = true)
    (hmin : 0 < cfg.min_scene_duration_seconds.getD 2)
    (hres : gerar_edit_json_pelas_batidas fs cfg nv na rand = some ed) :
    (∀ e ∈ ed.scenes,
        e.audio_start ∈ cleanBeats lines ∧
        e.audio_end ∈ cleanBeats lines ∧
        ∃ qs qe : ℚ, tcSec e.audio_start = some qs ∧ tcSec e.audio_end = some qe ∧
          qs < qe ∧ cfg.min_scene_duration_seconds.getD 2 ≤ qe - qs) ∧
    List.Chain' NoOverlap ed.scenes := by
  have hscenes : ∃ (u : Bool) (dd : List DetectedScene) (ff : List String),
      ed.scenes = synthLoop (cleanBeats lines) (cfg.min_scene_duration_seconds.getD 2)
        u dd ff rand (cleanBeats lines).length 0 0 := by
    unfold gerar_edit_json_pelas_batidas at hres
    rw [hlines] at hres
    dsimp only at hres
    by_cases hlen : (cleanBeats lines).length < 2
    · rw [if_pos hlen] at hres
      exact absurd hres (by simp)
    · rw [if_neg hlen] at hres
      by_cases hmd : (resolveSceneMode (cfg.use_scenes.getD false) fs.cenas_detectadas).1 = true
      · rw [if_pos hmd] at hres
        simp only [Option.some.injEq] at hres
        exact ⟨true, _, [], by rw [← hres]⟩
      · rw [if_neg hmd] at hres
        rcases hff : fs.frames_files with _ | files
        · rw [hff] at hres
          exact absurd hres (by simp)
        · rw [hff] at hres
          dsimp only at hres
          by_cases hjp : (frameJpgs files).isEmpty
          · rw [if_pos hjp] at hres
            exact absurd hres (by simp)
          · rw [if_neg hjp] at hres
            by_cases hnm : ((frameJpgs files).filterMap extract_frame_number).isEmpty
            · rw [if_pos hnm] at hres
              exact absurd hres (by simp)
            · rw [if_neg hnm] at hres
              simp only [Option.some.injEq] at hres
              exact ⟨false, _, _, by rw [← hres]⟩
  obtain ⟨u, dd, ff, hsc⟩ := hscenes
  constructor
  · intro e he
    rw [hsc] at he
    obtain ⟨si, ei, hsi0, hsiei, heilen, hes, hee, qs, qe, hqs, hqe, hdur⟩ := synthLoop_mem he
    refine ⟨?_, ?_, qs, qe, hqs, hqe, by linarith, hdur⟩
    · rw [hes]
      exact getD_mem_of_lt "" (by omega)
    · rw [hee]
      exact getD_mem_of_lt "" heilen
  · rw [hsc]
    exact synthLoop_chain hsort _ 0 0

unseal Rat.add Rat.sub Rat.mul Rat.inv in
/-- Witness for C1: the three-beat example run in frame mode with one
frame file; the single produced scene spans beats 1 to 3. -/
theorem C1_scene_entry_invariants_witness :
    pairwiseB tcLeB (cleanBeats ["00:00:00:00", "00:00:01:00", "00:00:03:00"]) = true ∧
    ((∀ e ∈ (EditData.mk "v" "a"
          [⟨"00:00:00:00", "00:00:03:00", Visual.frame "1"⟩]).scenes,
        e.audio_start ∈ cleanBeats ["00:00:00:00", "00:00:01:00", "00:00:03:00"] ∧
        e.audio_end ∈ cleanBeats ["00:00:00:00", "00:00:01:00", "00:00:03:00"] ∧
        ∃ qs qe : ℚ, tcSec e.audio_start = some qs ∧ tcSec e.audio_end = some qe ∧
          qs < qe ∧ (GenEditConfig.mk (some 2) (some false)).min_scene_duration_seconds.getD 2 ≤ qe - qs) ∧
      List.Chain' NoOverlap (EditData.mk "v" "a"
        [⟨"00:00:00:00", "00:00:03:00", Visual.frame "1"⟩]).scenes) :=
  ⟨by decide,
   C1_scene_entry_invariants
     ⟨some ["00:00:00:00", "00:00:01:00", "00:00:03:00"], none, some ["frame_000001_a.jpg"]⟩
     ⟨some 2, some false⟩ "v" "a" (fun _ => 0)
     ["00:00:00:00", "00:00:01:00", "00:00:03:00"]
     (EditData.mk "v" "a" [⟨"00:00:00:00", "00:00:03:00", Visual.frame "1"⟩])
     rfl (by decide) (by norm_num) (by decide)⟩

/-! ## Claim C3 — the three-beat worked example -/

/-- The detected scene that the loop picks for the single scene of the
C3 example (audio duration 3 s): uniformly from the pool filtered to
segments of duration ≥ 3 s if non-empty, else from the whole pool. -/
def exampleSceneChoice (d : List DetectedScene) (rand : ℕ → ℕ) : DetectedScene :=
  let candidates := d.filter (fun s =>
    decide ((tcSec (["00:00:00:00", "00:00:01:00", "00:00:03:00"].getD 2 "")).getD 0 -
      (tcSec (["00:00:00:00", "00:00:01:00", "00:00:03:00"].getD 0 "")).getD 0
        ≤ s.fim_segundos - s.inicio_segundos))
  if candidates ≠ [] then candidates.getD (rand 0 % candidates.length) default
  else d.getD (rand 0 % d.length) default

unseal Rat.add Rat.sub Rat.mul Rat.inv in
/-- Helper for C3, frame mode: on beats 0s/1s/3s with a 2-second minimum,
the loop emits exactly one scene, closing at the third beat (the second
beat is only 1 s away and is skipped as a closer). -/
lemma synthLoop_example_frame (nums : List String) (rand : ℕ → ℕ) (hne : nums ≠ []) :
    synthLoop ["00:00:00:00", "00:00:01:00", "00:00:03:00"] 2 false [] nums rand 3 0 0
      = [⟨"00:00:00:00", "00:00:03:00",
          Visual.frame (nums.getD (rand 0 % nums.length) "")⟩] := by
  rw [synthLoop]
  rw [if_pos (by decide)]
  dsimp only
  have hfe : findEnd ["00:00:00:00", "00:00:01:00", "00:00:03:00"]
      (["00:00:00:00", "00:00:01:00", "00:00:03:00"].getD 0 "") 2
      (["00:00:00:00", "00:00:01:00", "00:00:03:00"].length) (0 + 1) = some 2 := by decide
  rw [hfe]
  dsimp only
  rw [if_neg (by simp)]
  rw [if_pos ⟨rfl, hne⟩]
  congr 1

unseal Rat.add Rat.sub Rat.mul Rat.inv in
/-- Helper for C3, scene-segment mode: same single scene, with the visual
taken from the detected-scene pool. -/
lemma synthLoop_example_scene (d : List DetectedScene) (rand : ℕ → ℕ) (hd : d ≠ []) :
    synthLoop ["00:00:00:00", "00:00:01:00", "00:00:03:00"] 2 true d [] rand 3 0 0
      = [⟨"00:00:00:00", "00:00:03:00",
          Visual.scene_cuted (exampleSceneChoice d rand).cena_numero⟩] := by
  rw [synthLoop]
  rw [if_pos (by decide)]
  dsimp only
  have hfe : findEnd ["00:00:00:00", "00:00:01:00", "00:00:03:00"]
      (["00:00:00:00", "00:00:01:00", "00:00:03:00"].getD 0 "") 2
      (["00:00:00:00", "00:00:01:00", "00:00:03:00"].length) (0 + 1) = some 2 := by decide
  rw [hfe]
  dsimp only
  rw [if_pos ⟨rfl, hd⟩]
  congr 1

/-- C3: given beats `["00:00:00:00","00:00:01:00","00:00:03:00"]`,
`min_scene_duration_seconds = 2.0` and a non-empty visual-source
inventory — in either mode — the synthesizer produces exactly one scene,
with `audio_start = "00:00:00:00"` and `audio_end = "00:00:03:00"`
(timestamps parsed at the hard-coded fps 25). -/
theorem C3_single_scene_example :
    (∀ (files : List String) (rand : ℕ → ℕ) (nv na : String),
        frameNums files ≠ [] →
        ∃ v, gerar_edit_json_pelas_batidas
            ⟨some ["00:00:00:00", "00:00:01:00", "00:00:03:00"], none, some files⟩
            ⟨some 2, some false⟩ nv na rand
          = some ⟨nv, na, [⟨"00:00:00:00", "00:00:03:00", v⟩]⟩) ∧
    (∀ (d : List DetectedScene) (rand : ℕ → ℕ) (nv na : String),
        d ≠ [] →
        ∃ v, gerar_edit_json_pelas_batidas
            ⟨some ["00:00:00:00", "00:00:01:00", "00:00:03:00"], some d, none⟩
            ⟨some 2, some true⟩ nv na rand
          = some ⟨nv, na, [⟨"00:00:00:00", "00:00:03:00", v⟩]⟩) := by
  have hcb : cleanBeats ["00:00:00:00", "00:00:01:00", "00:00:03:00"]
      = ["00:00:00:00", "00:00:01:00", "00:00:03:00"] := by decide
  constructor
  · intro files rand nv na hfr
    have hnm : ((frameJpgs files).filterMap extract_frame_number).isEmpty = false := by
      rcases hh : (frameJpgs files).filterMap extract_frame_number with _ | ⟨a, t⟩
      · exact absurd (by simpa [frameNums] using hh) hfr
      · rfl
    have hjp : (frameJpgs files).isEmpty = false := by
      rcases hjpe : frameJpgs files with _ | ⟨a, t⟩
      · rw [hjpe] at hnm
        simp at hnm
      · rfl
    have hne : (frameJpgs files).filterMap extract_frame_number ≠ [] := by
      intro hcon
      rw [hcon] at hnm
      simp at hnm
    refine ⟨Visual.frame (((frameJpgs files).filterMap extract_frame_number).getD
      (rand 0 % ((frameJpgs files).filterMap extract_frame_number).length) ""), ?_⟩
    unfold gerar_edit_json_pelas_batidas
    dsimp only
    rw [hcb]
    rw [if_neg (by decide)]
    rw [show resolveSceneMode ((some false).getD false)
        (none : Option (List DetectedScene)) = (false, []) from rfl]
    dsimp only
    rw [if_neg (by simp)]
    rw [if_neg (by simp [hjp]), if_neg (by simp [hnm])]
    exact congrArg
      (fun l => some ({ source_video := nv, source_audio := na, scenes := l } : EditData))
      (synthLoop_example_frame _ rand hne)
  · intro d rand nv na hd
    refine ⟨Visual.scene_cuted (exampleSceneChoice d rand).cena_numero, ?_⟩
    unfold gerar_edit_json_pelas_batidas
    dsimp only
    rw [hcb]
    rw [if_neg (by decide)]
    have hmd : resolveSceneMode ((some true).getD false) (some d) = (true, d) := by
      unfold resolveSceneMode
      rw [if_pos (by decide)]
      dsimp only
      rw [if_neg (by simp [hd])]
    rw [hmd]
    dsimp only
    rw [if_pos rfl]
    exact congrArg
      (fun l => some ({ source_video := nv, source_audio := na, scenes := l } : EditData))
      (synthLoop_example_scene d rand hd)

unseal Rat.add Rat.sub Rat.mul Rat.inv in
/-- Witness for C3: both modes run on a singleton inventory. -/
theorem C3_single_scene_example_witness :
    (∃ v, gerar_edit_json_pelas_batidas
        ⟨some ["00:00:00:00", "00:00:01:00", "00:00:03:00"], none, some ["frame_000007_x.jpg"]⟩
        ⟨some 2, some false⟩ "v" "a" (fun _ => 0)
      = some ⟨"v", "a", [⟨"00:00:00:00", "00:00:03:00", v⟩]⟩) ∧
    (∃ v, gerar_edit_json_pelas_batidas
        ⟨some ["00:00:00:00", "00:00:01:00", "00:00:03:00"],
         some [⟨4, 0, 10⟩], none⟩
        ⟨some 2, some true⟩ "v" "a" (fun _ => 0)
      = some ⟨"v", "a", [⟨"00:00:00:00", "00:00:03:00", v⟩]⟩) :=
  ⟨C3_single_scene_example.1 ["frame_000007_x.jpg"] (fun _ => 0) "v" "a" (by decide),
   C3_single_scene_example.2 [⟨4, 0, 10⟩] (fun _ => 0) "v" "a" (by decide)⟩

/-! ## Claim C6 — scene-segment selection and mode degradation -/

/-- The pool a scene-segment visual is drawn from, for a committed scene
entry `e`: the detected scenes whose own duration is at least `e`'s audio
duration when at least one such scene exists, otherwise the whole pool
(the fallback of lines 357–360 of `editing.py`). -/
def scenePool (d : List DetectedScene) (e : SceneEntry) : List DetectedScene :=
  let cand := d.filter (fun s =>
    decide ((tcSec e.audio_end).getD 0 - (tcSec e.audio_start).getD 0
      ≤ s.fim_segundos - s.inicio_segundos))
  if cand ≠ [] then cand else d

lemma scenePool_subset {d : List DetectedScene} {e : SceneEntry} :
    ∀ ds ∈ scenePool d e, ds ∈ d := by
  intro ds hds
  unfold scenePool at hds
  dsimp only at hds
  split at hds
  · exact List.mem_of_mem_filter hds
  · exact hds

lemma synthLoop_visual_from_pool {beats : List String} {minDur : ℚ}
    {d : List DetectedScene} {fr : List String} {rand : ℕ → ℕ} (hd : d ≠ []) :
    ∀ {fuel i k : ℕ} {e : SceneEntry},
      e ∈ synthLoop beats minDur true d fr rand fuel i k →
      ∃ ds ∈ scenePool d e, e.visual = Visual.scene_cuted ds.cena_numero := by
  intro fuel
  induction fuel with
  | zero => intro i k e h; simp [synthLoop] at h
  | succ fuel ih =>
    intro i k e h
    rw [synthLoop] at h
    by_cases hi : i < beats.length - 1
    · rw [if_pos hi] at h
      dsimp only at h
      split at h
      · rename_i j hfe
        rw [if_pos ⟨rfl, hd⟩] at h
        rcases List.mem_cons.mp h with he | he
        · subst he
          unfold scenePool
          dsimp only
          by_cases hcand : d.filter (fun s =>
              decide ((tcSec (beats.getD j "")).getD 0 - (tcSec (beats.getD i "")).getD 0
                ≤ s.fim_segundos - s.inicio_segundos)) ≠ []
          · rw [if_pos hcand, if_pos hcand]
            exact ⟨_, getD_mod_mem default (rand k) hcand, rfl⟩
          · rw [if_neg hcand, if_neg hcand]
            exact ⟨_, getD_mod_mem default (rand k) hd, rfl⟩
        · exact ih he
      · exact ih h
    · rw [if_neg hi] at h
      simp at h

lemma synthLoop_pairs_mode {beats : List String} {minDur : ℚ}
    {d d' : List DetectedScene} {fr fr' : List String} {rand rand' : ℕ → ℕ}
    (hd : d ≠ []) (hf : fr' ≠ []) :
    ∀ fuel i k k' : ℕ,
      (synthLoop beats minDur true d fr rand fuel i k).map
          (fun e => (e.audio_start, e.audio_end))
        = (synthLoop beats minDur false d' fr' rand' fuel i k').map
          (fun e => (e.audio_start, e.audio_end)) := by
  intro fuel
  induction fuel with
  | zero => intro i k k'; rfl
  | succ fuel ih =>
    intro i k k'
    rw [synthLoop, synthLoop]
    by_cases hi : i < beats.length - 1
    · rw [if_pos hi, if_pos hi]
      dsimp only
      rcases hfe : findEnd beats (beats.getD i "") minDur beats.length (i + 1) with _ | j
      · exact ih (i + 1) k k'
      · dsimp only
        rw [if_pos ⟨rfl, hd⟩]
        rw [if_neg (show ¬(false = true ∧ d' ≠ []) by simp)]
        rw [if_pos (show false = false ∧ fr' ≠ [] from ⟨rfl, hf⟩)]
        simp only [List.map_cons]
        rw [ih j (k + 1) (k' + 1)]
    · rw [if_neg hi, if_neg hi]

lemma gerar_degrades_to_frame_mode (fs : SynthFS) (mind : Option ℚ)
    (nv na : String) (rand : ℕ → ℕ)
    (hc : fs.cenas_detectadas = none ∨ fs.cenas_detectadas = some []) :
    gerar_edit_json_pelas_batidas fs ⟨mind, some true⟩ nv na rand
      = gerar_edit_json_pelas_batidas fs ⟨mind, some false⟩ nv na rand := by
  have hmd : resolveSceneMode ((some true).getD false) fs.cenas_detectadas
      = resolveSceneMode ((some false).getD false) fs.cenas_detectadas := by
    rcases hc with hc | hc <;> rw [hc] <;> rfl
  unfold gerar_edit_json_pelas_batidas
  rcases hb : fs.batidas_lines with _ | lines
  · rfl
  · dsimp only
    rw [hmd]

/-- C6: in scene-segment mode (non-empty detected-scene pool) every
synthesized scene's visual is chosen from the pool of segments whose own
duration covers the scene's audio duration whenever such segments exist,
falling back to the whole pool otherwise (`scenePool`); no scene is
dropped by the visual-selection step — the audio timeline is exactly the
one frame-pointer mode would produce; and when the scene-segment record
file is missing or decodes to an empty list, the entire synthesis
degrades to frame-pointer mode. -/
theorem C6_scene_segment_selection :
    (∀ (beats : List String) (minDur : ℚ) (d : List DetectedScene) (fr : List String)
        (rand : ℕ → ℕ) (fuel i k : ℕ) (e : SceneEntry), d ≠ [] →
        e ∈ synthLoop beats minDur true d fr rand fuel i k →
        (∀ ds ∈ scenePool d e, ds ∈ d) ∧
        ∃ ds ∈ scenePool d e, e.visual = Visual.scene_cuted ds.cena_numero) ∧
    (∀ (beats : List String) (minDur : ℚ) (d d' : List DetectedScene)
        (fr fr' : List String) (rand rand' : ℕ → ℕ) (fuel i k k' : ℕ),
        d ≠ [] → fr' ≠ [] →
        (synthLoop beats minDur true d fr rand fuel i k).map
            (fun e => (e.audio_start, e.audio_end))
          = (synthLoop beats minDur false d' fr' rand' fuel i k').map
            (fun e => (e.audio_start, e.audio_end))) ∧
    (∀ (fs : SynthFS) (mind : Option ℚ) (nv na : String) (rand : ℕ → ℕ),
        fs.cenas_detectadas = none ∨ fs.cenas_detectadas = some [] →
        gerar_edit_json_pelas_batidas fs ⟨mind, some true⟩ nv na rand
          = gerar_edit_json_pelas_batidas fs ⟨mind, some false⟩ nv na rand) :=
  ⟨fun _ _ _ _ _ _ _ _ _ hd he => ⟨scenePool_subset, synthLoop_visual_from_pool hd he⟩,
   fun _ _ _ _ _ _ _ _ _ _ _ _ hd hf => synthLoop_pairs_mode hd hf _ _ _ _,
   fun fs mind nv na rand hc => gerar_degrades_to_frame_mode fs mind nv na rand hc⟩

unseal Rat.add Rat.sub Rat.mul Rat.inv in
/-- Witness for C6: a concrete scene-mode run whose single entry draws
its visual from the pool, and a degraded run with a missing record file. -/
theorem C6_scene_segment_selection_witness :
    (∃ ds ∈ scenePool [⟨4, 0, 10⟩]
        ⟨"00:00:00:00", "00:00:03:00", Visual.scene_cuted 4⟩,
      (SceneEntry.mk "00:00:00:00" "00:00:03:00"
        (Visual.scene_cuted 4)).visual = Visual.scene_cuted ds.cena_numero) ∧
    gerar_edit_json_pelas_batidas ⟨some ["00:00:00:00"], none, some []⟩
        ⟨some 2, some true⟩ "v" "a" (fun _ => 0)
      = gerar_edit_json_pelas_batidas ⟨some ["00:00:00:00"], none, some []⟩
        ⟨some 2, some false⟩ "v" "a" (fun _ => 0) :=
  ⟨((C6_scene_segment_selection.1 ["00:00:00:00", "00:00:01:00", "00:00:03:00"] 2
      [⟨4, 0, 10⟩] [] (fun _ => 0) 3 0 0
      ⟨"00:00:00:00", "00:00:03:00", Visual.scene_cuted 4⟩
      (by decide) (by decide)).2),
   C6_scene_segment_selection.2.2 ⟨some ["00:00:00:00"], none, some []⟩
     (some 2) "v" "a" (fun _ => 0) (Or.inl rfl)⟩

/-! ## Claim C2 — the timecode round trip. Digit-string groundwork -/

/-- Characters produced by the digit serializer. -/
def IsDigitCharOf (c : Char) : Prop := ∃ d : ℕ, d < 10 ∧ c = digitChar d

lemma isDigitCharOf_facts {c : Char} (h : IsDigitCharOf c) :
    c.isDigit = true ∧ c.isWhitespace = false ∧ c ≠ ':' ∧ c ≠ '-' ∧ c ≠ '+' := by
  obtain ⟨d, hd, rfl⟩ := h
  interval_cases d <;> exact ⟨by decide, by decide, by decide, by decide, by decide⟩

lemma digitChar_toNat {d : ℕ} (h : d < 10) : (digitChar d).toNat = 48 + d := by
  interval_cases d <;> decide

lemma natToCharsAux_digits : ∀ {fuel n : ℕ}, n < fuel →
    ∀ c ∈ natToCharsAux fuel n, IsDigitCharOf c := by
  intro fuel
  induction fuel with
  | zero => intro n h; omega
  | succ fuel ih =>
    intro n hn c hc
    rw [natToCharsAux] at hc
    split at hc
    · rename_i h10
      simp only [List.mem_singleton] at hc
      exact ⟨n, h10, hc⟩
    · rename_i h10
      rcases List.mem_append.mp hc with h | h
      · exact ih (by omega) c h
      · simp only [List.mem_singleton] at h
        exact ⟨n % 10, by omega, h⟩

lemma natToCharsAux_ne_nil {fuel n : ℕ} (h : n < fuel) : natToCharsAux fuel n ≠ [] := by
  cases fuel with
  | zero => omega
  | succ fuel =>
    rw [natToCharsAux]
    split
    · simp
    · simp

lemma charsToNatCore_append (xs : List Char) (c : Char) :
    charsToNatCore (xs ++ [c]) = 10 * charsToNatCore xs + (c.toNat - 48) := by
  unfold charsToNatCore
  rw [List.foldl_append]
  rfl

lemma charsToNatCore_natToCharsAux : ∀ {fuel n : ℕ}, n < fuel →
    charsToNatCore (natToCharsAux fuel n) = n := by
  intro fuel
  induction fuel with
  | zero => intro n h; omega
  | succ fuel ih =>
    intro n hn
    rw [natToCharsAux]
    split
    · rename_i h10
      show 10 * 0 + ((digitChar n).toNat - 48) = n
      rw [digitChar_toNat h10]
      omega
    · rename_i h10
      rw [charsToNatCore_append, ih (by omega)]
      have := digitChar_toNat (show n % 10 < 10 by omega)
      omega

lemma natToChars_digits (n : ℕ) : ∀ c ∈ natToChars n, IsDigitCharOf c :=
  natToCharsAux_digits (Nat.lt_succ_self n)

lemma natToChars_ne_nil (n : ℕ) : natToChars n ≠ [] :=
  natToCharsAux_ne_nil (Nat.lt_succ_self n)

lemma charsToNatCore_natToChars (n : ℕ) : charsToNatCore (natToChars n) = n :=
  charsToNatCore_natToCharsAux (Nat.lt_succ_self n)

/-- The padded digit string written by `f"{x:02d}"` for a non-negative
value: leading zeros up to width 2, then the digits. -/
def pad2 (n : ℕ) : List Char :=
  List.replicate (2 - (natToChars n).length) '0' ++ natToChars n

lemma pad2_digits (n : ℕ) : ∀ c ∈ pad2 n, IsDigitCharOf c := by
  intro c hc
  rcases List.mem_append.mp hc with h | h
  · have hc0 := List.eq_of_mem_replicate h
    exact ⟨0, by omega, by rw [hc0]; rfl⟩
  · exact natToChars_digits n c h

lemma pad2_ne_nil (n : ℕ) : pad2 n ≠ [] := by
  intro h
  rcases List.append_eq_nil.mp h with ⟨_, h2⟩
  exact natToChars_ne_nil n h2

lemma charsToNatCore_pad2 (n : ℕ) : charsToNatCore (pad2 n) = n := by
  unfold pad2 charsToNatCore
  rw [List.foldl_append]
  have hrep : List.foldl (fun a c => 10 * a + (c.toNat - 48)) 0
      (List.replicate (2 - (natToChars n).length) '0') = 0 := by
    generalize 2 - (natToChars n).length = k
    induction k with
    | zero => rfl
    | succ k ihk =>
      rw [List.replicate_succ, List.foldl_cons]
      exact ihk
  rw [hrep]
  exact charsToNatCore_natToChars n

lemma charsToNat?_pad2 (n : ℕ) : charsToNat? (pad2 n) = some n := by
  unfold charsToNat?
  rw [if_pos ⟨pad2_ne_nil n, List.all_eq_true.mpr
    (fun c hc => (isDigitCharOf_facts (pad2_digits n c hc)).1)⟩]
  rw [charsToNatCore_pad2]

lemma dropWhile_eq_self_of_not {p : Char → Bool} {cs : List Char}
    (h : ∀ c ∈ cs, p c = false) : cs.dropWhile p = cs := by
  cases cs with
  | nil => rfl
  | cons c t => rw [List.dropWhile_cons, if_neg (by simp [h c (by simp)])]

lemma stripWs_of_no_ws {cs : List Char} (h : ∀ c ∈ cs, c.isWhitespace = false) :
    stripWs cs = cs := by
  unfold stripWs
  rw [dropWhile_eq_self_of_not h]
  rw [dropWhile_eq_self_of_not (fun c hc => h c (List.mem_reverse.mp hc))]
  exact List.reverse_reverse cs

lemma pyIntChars_all_digit {cs : List Char} (hne : cs ≠ [])
    (hdig : ∀ c ∈ cs, IsDigitCharOf c) :
    pyIntChars cs = (charsToNat? cs).map (fun v => (v : Int)) := by
  have hws : ∀ c ∈ cs, c.isWhitespace = false :=
    fun c hc => (isDigitCharOf_facts (hdig c hc)).2.1
  unfold pyIntChars
  rw [stripWs_of_no_ws hws]
  cases cs with
  | nil => exact absurd rfl hne
  | cons c0 rest =>
    obtain ⟨_, _, _, hminus, hplus⟩ := isDigitCharOf_facts (hdig c0 (by simp))
    rw [if_neg (by simp [hminus]), if_neg (by simp [hplus])]

lemma pyIntChars_pad2 (n : ℕ) : pyIntChars (pad2 n) = some ((n : ℕ) : Int) := by
  rw [pyIntChars_all_digit (pad2_ne_nil n) (pad2_digits n), charsToNat?_pad2]
  rfl

/-! ## Splitting the serialized timecode back into its components -/

lemma splitOnChar_not_mem {sep : Char} : ∀ {xs : List Char}, sep ∉ xs →
    splitOnChar sep xs = [xs] := by
  intro xs
  induction xs with
  | nil => intro _; rfl
  | cons c t ih =>
    intro h
    rw [splitOnChar]
    rw [if_neg (fun hc => h (by rw [hc]; exact List.mem_cons_self _ _))]
    rw [ih (fun hm => h (List.mem_cons_of_mem c hm))]

lemma splitOnChar_append {sep : Char} {xs : List Char} (ys : List Char) (h : sep ∉ xs) :
    splitOnChar sep (xs ++ sep :: ys) = xs :: splitOnChar sep ys := by
  induction xs with
  | nil =>
    rw [List.nil_append, splitOnChar, if_pos rfl]
  | cons c t ih =>
    rw [List.cons_append, splitOnChar]
    rw [if_neg (fun hc => h (by rw [hc]; exact List.mem_cons_self _ _))]
    rw [ih (fun hm => h (List.mem_cons_of_mem c hm))]

lemma colon_not_mem_pad2 (n : ℕ) : ':' ∉ pad2 n := by
  intro h
  exact (isDigitCharOf_facts (pad2_digits n _ h)).2.2.1 rfl

lemma splitOnChar_tcChars {a b c d : List Char}
    (ha : ':' ∉ a) (hb : ':' ∉ b) (hc : ':' ∉ c) (hd : ':' ∉ d) :
    splitOnChar ':' (tcChars a b c d) = [a, b, c, d] := by
  unfold tcChars
  rw [splitOnChar_append _ ha, splitOnChar_append _ hb, splitOnChar_append _ hc,
    splitOnChar_not_mem hd]

lemma parse_tc_pad2 (a b c dN : ℕ) (fps : PyNum) :
    parse_hhmmssff_to_seconds (String.mk (tcChars (pad2 a) (pad2 b) (pad2 c) (pad2 dN))) fps
      = .ok ((((a : ℕ) : Int) * 3600 + ((b : ℕ) : Int) * 60 + ((c : ℕ) : Int) : Int)
          + (((dN : ℕ) : Int) : ℚ) / ((effFps fps : Int) : ℚ)) := by
  have hsplit : splitOnChar ':'
      (String.mk (tcChars (pad2 a) (pad2 b) (pad2 c) (pad2 dN))).data
      = [pad2 a, pad2 b, pad2 c, pad2 dN] :=
    splitOnChar_tcChars (colon_not_mem_pad2 a) (colon_not_mem_pad2 b)
      (colon_not_mem_pad2 c) (colon_not_mem_pad2 dN)
  have hmapm : ([pad2 a, pad2 b, pad2 c, pad2 dN].mapM pyIntChars)
      = some [((a : ℕ) : Int), ((b : ℕ) : Int), ((c : ℕ) : Int), ((dN : ℕ) : Int)] := by
    rw [List.mapM_cons, List.mapM_cons, List.mapM_cons, List.mapM_cons, List.mapM_nil,
      pyIntChars_pad2, pyIntChars_pad2, pyIntChars_pad2, pyIntChars_pad2]
    rfl
  unfold parse_hhmmssff_to_seconds
  dsimp only
  rw [hsplit]
  rw [if_pos (show ([pad2 a, pad2 b, pad2 c, pad2 dN].length = 4 ∨
    [pad2 a, pad2 b, pad2 c, pad2 dN].length = 3) from Or.inl rfl)]
  rw [if_pos (show [pad2 a, pad2 b, pad2 c, pad2 dN].length = 4 from rfl)]
  rw [hmapm]

/-! ## Reduction of `format_seconds_to_hhmmssff` at a non-negative time -/

lemma fmt02d_coe (x : ℕ) : fmt02d ((x : ℕ) : Int) = pad2 x := by
  unfold fmt02d pad2
  rw [if_neg (by omega)]
  dsimp only
  norm_num

lemma fdiv_natCast (m n : ℕ) : Int.fdiv ((m : ℕ) : Int) ((n : ℕ) : Int) = ((m / n : ℕ) : Int) :=
  (Int.ofNat_fdiv m n).symm

lemma fmod_natCast (m n : ℕ) : Int.fmod ((m : ℕ) : Int) ((n : ℕ) : Int) = ((m % n : ℕ) : Int) :=
  (Int.ofNat_fmod m n).symm

lemma fdiv_natCast60 (m : ℕ) : Int.fdiv ((m : ℕ) : Int) (60 : Int) = ((m / 60 : ℕ) : Int) := by
  have := (Int.ofNat_fdiv m 60).symm
  simpa using this

lemma fmod_natCast60 (m : ℕ) : Int.fmod ((m : ℕ) : Int) (60 : Int) = ((m % 60 : ℕ) : Int) := by
  have := (Int.ofNat_fmod m 60).symm
  simpa using this

lemma pyRound_nonneg {q : ℚ} (h : 0 ≤ q) : 0 ≤ pyRound q := by
  unfold pyRound
  dsimp only
  have h0 : 0 ≤ ⌊q⌋ := Int.floor_nonneg.mpr h
  split
  · exact h0
  split
  · omega
  split
  · exact h0
  · omega

lemma pyRound_abs (q : ℚ) : |((pyRound q : Int) : ℚ) - q| ≤ 1 / 2 := by
  unfold pyRound
  dsimp only
  have h1 : ((⌊q⌋ : Int) : ℚ) ≤ q := Int.floor_le q
  have h2 : q < ((⌊q⌋ : Int) : ℚ) + 1 := Int.lt_floor_add_one q
  split
  · rename_i hr
    rw [abs_le]
    constructor <;> linarith
  split
  · rename_i hr1 hr2
    rw [abs_le]
    push_cast
    constructor <;> linarith
  · rename_i hr1 hr2
    have heq : q - ((⌊q⌋ : Int) : ℚ) = 1 / 2 := by linarith
    split
    · rw [abs_le]
      constructor <;> linarith
    · rw [abs_le]
      push_cast
      constructor <;> linarith

/-- C2: for every `t ≥ 0` and integer fps `n ≥ 1`, converting `t` to an
`HH:MM:SS:FF` timecode with `format_seconds_to_hhmmssff` and back with
`parse_hhmmssff_to_seconds` at the same fps succeeds and yields a value
within `1/n` of `t` (quantization to the nearest frame). -/
theorem C2_timecode_roundtrip (t : ℚ) (n : Int) (ht : 0 ≤ t) (hn : 1 ≤ n) :
    ∃ q : ℚ, parse_hhmmssff_to_seconds (format_seconds_to_hhmmssff t (.int n)) (.int n)
        = .ok q ∧ |q - t| ≤ 1 / ((n : Int) : ℚ) := by
  have hint : effFps (.int n) = if n ≤ 0 then 25 else n := rfl
  have heff : effFps (.int n) = n := by
    rw [hint, if_neg (by omega)]
  set n' : ℕ := n.toNat with hn'def
  have hn'N : ((n' : ℕ) : Int) = n := Int.toNat_of_nonneg (by omega)
  have hn'pos : 0 < n' := by omega
  have hQn : (0 : ℚ) < ((n' : ℕ) : ℚ) := by exact_mod_cast hn'pos
  have hNnn : (0 : ℚ) ≤ t * ((n : Int) : ℚ) := by
    apply mul_nonneg ht
    exact_mod_cast (by omega : (0 : Int) ≤ n)
  have hN0 : 0 ≤ pyRound (t * ((n : Int) : ℚ)) := pyRound_nonneg hNnn
  set m : ℕ := (pyRound (t * ((n : Int) : ℚ))).toNat with hmdef
  have hmN : ((m : ℕ) : Int) = pyRound (t * ((n : Int) : ℚ)) := Int.toNat_of_nonneg hN0
  have hfmt : format_seconds_to_hhmmssff t (.int n)
      = String.mk (tcChars (pad2 (m / n' / 60 / 60)) (pad2 (m / n' / 60 % 60))
          (pad2 (m / n' % 60)) (pad2 (m % n'))) := by
    unfold format_seconds_to_hhmmssff
    dsimp only
    rw [heff]
    rw [← hmN]
    rw [← hn'N]
    simp only [fmod_natCast, fdiv_natCast, fmod_natCast60, fdiv_natCast60, fmt02d_coe]
  rw [hfmt, parse_tc_pad2]
  refine ⟨_, rfl, ?_⟩
  rw [heff]
  have hdecomp : (m / n' / 60 / 60) * 3600 + (m / n' / 60 % 60) * 60 + (m / n' % 60)
      = m / n' := by omega
  have hveq : ((((m / n' / 60 / 60 : ℕ) : Int) * 3600 + ((m / n' / 60 % 60 : ℕ) : Int) * 60
        + ((m / n' % 60 : ℕ) : Int) : Int) : ℚ)
        + (((m % n' : ℕ) : Int) : ℚ) / ((n : Int) : ℚ)
      = (m : ℚ) / ((n' : ℕ) : ℚ) := by
    have hsumZ : ((m / n' / 60 / 60 : ℕ) : Int) * 3600 + ((m / n' / 60 % 60 : ℕ) : Int) * 60
        + ((m / n' % 60 : ℕ) : Int) = ((m / n' : ℕ) : Int) := by
      exact_mod_cast hdecomp
    rw [hsumZ, ← hn'N]
    rw [Int.cast_natCast, Int.cast_natCast, Int.cast_natCast]
    rw [eq_div_iff (ne_of_gt hQn), add_mul, div_mul_cancel₀ _ (ne_of_gt hQn)]
    have hmn : m / n' * n' + m % n' = m := by
      have h := Nat.div_add_mod m n'
      rw [Nat.mul_comm n' (m / n')] at h
      exact h
    exact_mod_cast hmn
  rw [hveq]
  have habs := pyRound_abs (t * ((n : Int) : ℚ))
  rw [← hmN] at habs
  rw [← hn'N] at habs ⊢
  have habs2 : |(m : ℚ) - t * ((n' : ℕ) : ℚ)| ≤ 1 / 2 := by
    exact_mod_cast habs
  have h1 : (m : ℚ) / ((n' : ℕ) : ℚ) - t = ((m : ℚ) - t * ((n' : ℕ) : ℚ)) / ((n' : ℕ) : ℚ) := by
    field_simp
    try ring
  have hgoal : |(m : ℚ) / ((n' : ℕ) : ℚ) - t| ≤ 1 / ((n' : ℕ) : ℚ) := by
    rw [h1, abs_div, abs_of_pos hQn]
    calc |(m : ℚ) - t * ((n' : ℕ) : ℚ)| / ((n' : ℕ) : ℚ)
        ≤ (1 / 2) / ((n' : ℕ) : ℚ) := (div_le_div_right hQn).mpr habs2
      _ ≤ 1 / ((n' : ℕ) : ℚ) := (div_le_div_right hQn).mpr (by norm_num)
  rw [Int.cast_natCast]
  exact hgoal

/-- Witness for C2 at `t = 1/3`, `fps = 25`: the round trip through
`"00:00:00:08"` lands within `1/25` of the input. -/
theorem C2_timecode_roundtrip_witness :
    (0 : ℚ) ≤ 1 / 3 ∧ (1 : Int) ≤ 25 ∧
    ∃ q : ℚ, parse_hhmmssff_to_seconds (format_seconds_to_hhmmssff (1 / 3) (.int 25)) (.int 25)
        = .ok q ∧ |q - 1 / 3| ≤ 1 / ((25 : Int) : ℚ) :=
  ⟨by norm_num, by norm_num, C2_timecode_roundtrip (1 / 3) 25 (by norm_num) (by norm_num)⟩
